import Mathlib

/-!
Verification of the Defensiq-netSecure traffic-inspection core.

This file gives a shallow embedding, in Lean 4, of the rule store
(`src/rules/blocklist_manager.py`) and of the packet filter engine
(`src/network/filter_engine.py`), and proves properties of that embedding.

Modelling conventions:
* Python strings are Lean `String`s; all manipulation is done through
  `List Char` helpers defined below so that every operation is a plain
  structurally recursive function.  Python's `str.lower`, `str.strip` and
  `int(...)` are Unicode-aware; the helpers below cover the ASCII range
  (ASCII digits, ASCII case folding, ASCII whitespace plus `\x0B`/`\x0C`),
  which is the range exercised by domain names, IP addresses and HTTP
  payloads in this code base.
* Python `bytes` values are `List Nat` (each entry a byte value).
* Python `dict`s are association lists with dict semantics: assignment
  updates an existing key in place, otherwise appends; `del` removes the
  key; iteration order is list order, matching insertion order.
* File system and socket effects are external: whether a disk write
  succeeds is passed in as a `Bool` argument, a compiled regex is a value
  of the opaque record `RePattern` (its `search` field is the matcher that
  `re.compile` would produce), and `re.compile` itself is represented by
  an `Option RePattern` argument or a `String → Option RePattern`
  parameter (`none` = `re.error`).
-/

/-- ASCII whitespace characters recognised by Python's `str.strip()` /
`int()` (space, tab, newline, carriage return, vertical tab, form feed). -/
def pyWhitespaceChar (c : Char) : Bool :=
  c = ' ' || c = '\t' || c = '\n' || c = '\r' || c = '\x0B' || c = '\x0C'

/-- Remove leading and trailing Python whitespace from a character list. -/
def stripList (l : List Char) : List Char :=
  ((l.dropWhile pyWhitespaceChar).reverse.dropWhile pyWhitespaceChar).reverse

/-- Python `str.strip()` (no argument form), ASCII fragment. -/
def pyStrip (s : String) : String :=
  String.mk (stripList s.toList)

/-- Python `str.lower()`, ASCII fragment. -/
def pyLower (s : String) : String :=
  String.mk (s.toList.map Char.toLower)

/-- Split a character list on every occurrence of the character `c`,
Python `str.split(c)` semantics: the result is never empty, and empty
fields are kept. -/
def listSplitOnChar (c : Char) : List Char → List (List Char)
  | [] => [[]]
  | x :: xs =>
    match listSplitOnChar c xs with
    | [] => [[]]
    | h :: t => if x = c then [] :: h :: t else (x :: h) :: t

/-- Python `domain.split('.')`. -/
def pySplitDot (s : String) : List String :=
  (listSplitOnChar '.' s.toList).map String.mk

/-- Join character lists with the separator character `c` between them
(Python `c.join(...)` on the underlying lists). -/
def joinList (c : Char) : List (List Char) → List Char
  | [] => []
  | [x] => x
  | x :: y :: t => x ++ c :: joinList c (y :: t)

/-- Python `'.'.join(parts)`. -/
def joinDots (parts : List String) : String :=
  String.mk (joinList '.' (parts.map String.toList))

/-- Python `payload_str.split('\r\n')`: split on the two-character CRLF
sequence, scanning left to right, keeping empty fields. -/
def splitOnCRLF : List Char → List (List Char)
  | [] => [[]]
  | '\r' :: '\n' :: xs => [] :: splitOnCRLF xs
  | x :: xs =>
    match splitOnCRLF xs with
    | [] => [[]]
    | h :: t => (x :: h) :: t

/-- Python `line.split(':', 1)[1]`: everything after the first colon.
(When the line has no colon Python would raise `IndexError`; every call
site in the source first checks the line starts with `host:`, so a colon
is always present; we return `""` in the unreachable case.) -/
def afterFirstColon (s : String) : String :=
  match listSplitOnChar ':' s.toList with
  | [] => ""
  | _ :: t => String.mk (List.intercalate [':'] t)

/-- Python `host.split(':')[0]`: everything before the first colon. -/
def beforeFirstColon (s : String) : String :=
  String.mk ((listSplitOnChar ':' s.toList).headD [])

/-- Python `s.startswith(pre)`. -/
def pyStartsWith (pre s : String) : Bool :=
  pre.toList.isPrefixOf s.toList

/-- Python `needle in hay` on strings (substring containment). -/
def strContains (hay needle : String) : Bool :=
  hay.toList.tails.any (fun t => needle.toList.isPrefixOf t)

/-- The byte sequence of an ASCII string, for `bytes` literals such as
`b'GET '`. -/
def asciiBytes (s : String) : List Nat :=
  s.toList.map Char.toNat

/-- Python f-string rendering of a value that is either a string or
`None`. -/
def pyStr (o : Option String) : String :=
  match o with
  | some s => s
  | none => "None"

/-- Digit run accepted by Python's `int(...)` after the first digit:
further digits, with single underscores allowed between digits.
Accumulates the value in `acc`. -/
def pyDigitsAux : List Char → Nat → Option Nat
  | [], acc => some acc
  | c :: rest, acc =>
    if c.isDigit then pyDigitsAux rest (10 * acc + (c.toNat - 48))
    else if c = '_' then
      match rest with
      | d :: rest2 =>
        if d.isDigit then pyDigitsAux rest2 (10 * acc + (d.toNat - 48)) else none
      | [] => none
    else none

/-- A nonempty digit run (underscores allowed between digits) and its
value; `none` otherwise. -/
def pyNatDigits : List Char → Option Nat
  | [] => none
  | c :: rest => if c.isDigit then pyDigitsAux rest (c.toNat - 48) else none

/-- Python `int(s)` on a string: strips surrounding whitespace, accepts an
optional `+`/`-` sign followed by digits with optional single underscores
between digits; `none` models `ValueError`.  (ASCII fragment: Python
additionally accepts non-ASCII decimal digits and whitespace.) -/
def pyIntOfList : List Char → Option Int
  | [] => none
  | c :: rest =>
    if c = '+' then (pyNatDigits rest).map Int.ofNat
    else if c = '-' then (pyNatDigits rest).map (fun n => -(Int.ofNat n : Int))
    else (pyNatDigits (c :: rest)).map Int.ofNat

def pyInt? (s : String) : Option Int :=
  pyIntOfList (stripList s.toList)

/-- The value of a digit string (used only to state spec-level octet
bounds). -/
def digitsToNat (l : List Char) : Nat :=
  l.foldl (fun a c => 10 * a + (c.toNat - 48)) 0

/-- Is `b` a UTF-8 continuation byte? -/
def utf8Cont (b : Nat) : Bool :=
  128 ≤ b && b ≤ 191

/-- Valid second byte of a three-byte UTF-8 sequence with leading byte
`b1`. -/
def utf8Cont3 (b1 b2 : Nat) : Bool :=
  if b1 = 224 then 160 ≤ b2 && b2 ≤ 191
  else if b1 = 237 then 128 ≤ b2 && b2 ≤ 159
  else utf8Cont b2

/-- Valid second byte of a four-byte UTF-8 sequence with leading byte
`b1`. -/
def utf8Cont4 (b1 b2 : Nat) : Bool :=
  if b1 = 240 then 144 ≤ b2 && b2 ≤ 191
  else if b1 = 244 then 128 ≤ b2 && b2 ≤ 143
  else utf8Cont b2

/-- Python `bytes.decode('utf-8', errors='ignore')`: decode UTF-8,
dropping maximal invalid subparts and re-examining the byte that broke a
sequence.  Structural recursion on a fuel counter; every recursive call
consumes at least one byte, so fuel equal to the list length (supplied by
`utf8DecodeIgnore`) is never exhausted. -/
def utf8DecodeIgnoreAux : Nat → List Nat → List Char
  | 0, _ => []
  | _, [] => []
  | fuel + 1, b1 :: rest =>
    if b1 ≤ 127 then Char.ofNat b1 :: utf8DecodeIgnoreAux fuel rest
    else if 194 ≤ b1 && b1 ≤ 223 then
      match rest with
      | [] => []
      | b2 :: rest2 =>
        if utf8Cont b2 then
          Char.ofNat ((b1 - 192) * 64 + (b2 - 128)) :: utf8DecodeIgnoreAux fuel rest2
        else utf8DecodeIgnoreAux fuel rest
    else if 224 ≤ b1 && b1 ≤ 239 then
      match rest with
      | [] => []
      | b2 :: rest2 =>
        if utf8Cont3 b1 b2 then
          match rest2 with
          | [] => []
          | b3 :: rest3 =>
            if utf8Cont b3 then
              Char.ofNat ((b1 - 224) * 4096 + (b2 - 128) * 64 + (b3 - 128)) ::
                utf8DecodeIgnoreAux fuel rest3
            else utf8DecodeIgnoreAux fuel rest2
        else utf8DecodeIgnoreAux fuel rest
    else if 240 ≤ b1 && b1 ≤ 244 then
      match rest with
      | [] => []
      | b2 :: rest2 =>
        if utf8Cont4 b1 b2 then
          match rest2 with
          | [] => []
          | b3 :: rest3 =>
            if utf8Cont b3 then
              match rest3 with
              | [] => []
              | b4 :: rest4 =>
                if utf8Cont b4 then
                  Char.ofNat ((b1 - 240) * 262144 + (b2 - 128) * 4096 +
                      (b3 - 128) * 64 + (b4 - 128)) :: utf8DecodeIgnoreAux fuel rest4
                else utf8DecodeIgnoreAux fuel rest3
            else utf8DecodeIgnoreAux fuel rest2
        else utf8DecodeIgnoreAux fuel rest
    else utf8DecodeIgnoreAux fuel rest

/-- Python `bytes.decode('utf-8', errors='ignore')`. -/
def utf8DecodeIgnore (l : List Nat) : List Char :=
  utf8DecodeIgnoreAux l.length l

/-- Python `dict` read: the value stored under key `k`, if any. -/
def dictLookup (m : List (String × String)) (k : String) : Option String :=
  (m.find? (fun e => e.1 == k)).map (fun e => e.2)

/-- Python `dict` assignment `m[k] = v`: update an existing key in place
(preserving its position) or append a new entry. -/
def dictInsert (m : List (String × String)) (k v : String) : List (String × String) :=
  if m.any (fun e => e.1 == k) then
    m.map (fun e => if e.1 == k then (k, v) else e)
  else m ++ [(k, v)]

/-- Python `del m[k]`. -/
def dictErase (m : List (String × String)) (k : String) : List (String × String) :=
  m.filter (fun e => !(e.1 == k))

/-- Build a dict by assigning the entries of `l` in order into an empty
dict (the shape of every loading loop in `load_blocklist`). -/
def buildDict (l : List (String × String)) : List (String × String) :=
  l.foldl (fun m e => dictInsert m e.1 e.2) []

/-- The `domain.lower().strip()` normalization applied by `add_domain`,
`remove_domain` and `is_domain_blocked` to their input. -/
def normalizeDomain (s : String) : String :=
  pyStrip (pyLower s)

/-- A compiled regular expression as produced by
`re.compile(pattern, re.IGNORECASE)`: the original source text and the
matcher that `.search` performs.  The matcher is opaque — nothing in the
verified code inspects a regex beyond calling `.search` and reading
`.pattern`. -/
structure RePattern where
  pattern : String
  search : String → Bool

/-- In-memory state of `BlocklistManager`
(`src/rules/blocklist_manager.py`): `blocked_domains` and `blocked_ips`
are Python dicts mapping value → category, `blocked_patterns` is the
ordered list of `(compiled_pattern, category)` pairs. -/
structure Blocklist where
  blocked_domains : List (String × String)
  blocked_ips : List (String × String)
  blocked_patterns : List (RePattern × String)

/-- Embeds `BlocklistManager._is_valid_ip`: split on `.`, require exactly four
fields, and require every field to satisfy `0 <= int(field) <= 255`
(`ValueError` from `int` makes the whole check false). -/
def is_valid_ip (ip : String) : Bool :=
  let parts := pySplitDot ip
  if parts.length ≠ 4 then false
  else parts.all (fun p =>
    match pyInt? p with
    | some n => decide (0 ≤ n ∧ n ≤ 255)
    | none => false)

/-- Embeds `BlocklistManager.add_domain`.  `saveOk` is whether the synchronous
`save_blocklist` disk write succeeds; `save_blocklist` does not change
in-memory state, so only its boolean outcome matters here. -/
def add_domain (saveOk : Bool) (domain category : String) (s : Blocklist) :
    Bool × Blocklist :=
  let d := normalizeDomain domain
  if d = "" || d.toList.contains '/' then (false, s)
  else (saveOk, { s with blocked_domains := dictInsert s.blocked_domains d category })

/-- Embeds `BlocklistManager.add_ip`. -/
def add_ip (saveOk : Bool) (ip category : String) (s : Blocklist) :
    Bool × Blocklist :=
  let i := pyStrip ip
  if !is_valid_ip i then (false, s)
  else (saveOk, { s with blocked_ips := dictInsert s.blocked_ips i category })

/-- Embeds `BlocklistManager.add_pattern`.  The `compiled` argument is the
outcome of `re.compile(pattern, re.IGNORECASE)`: `none` models `re.error`
(return `False`, no mutation), `some p` the compiled pattern. -/
def add_pattern (saveOk : Bool) (compiled : Option RePattern) (category : String)
    (s : Blocklist) : Bool × Blocklist :=
  match compiled with
  | none => (false, s)
  | some p => (saveOk, { s with blocked_patterns := s.blocked_patterns ++ [(p, category)] })

/-- Embeds `BlocklistManager.remove_domain`. -/
def remove_domain (saveOk : Bool) (domain : String) (s : Blocklist) :
    Bool × Blocklist :=
  let d := normalizeDomain domain
  match dictLookup s.blocked_domains d with
  | some _ => (saveOk, { s with blocked_domains := dictErase s.blocked_domains d })
  | none => (false, s)

/-- Embeds `BlocklistManager.remove_ip`. -/
def remove_ip (saveOk : Bool) (ip : String) (s : Blocklist) :
    Bool × Blocklist :=
  let i := pyStrip ip
  match dictLookup s.blocked_ips i with
  | some _ => (saveOk, { s with blocked_ips := dictErase s.blocked_ips i })
  | none => (false, s)

/-- The `for i in range(len(parts)): parent_domain = '.'.join(parts[i:])`
walk of `is_domain_blocked`: try each dot-suffix of the part list, longest
first, returning the first one present in the domain dict together with
its category. -/
def parentLookup (m : List (String × String)) : List String → Option (String × String)
  | [] => none
  | part :: rest =>
    match dictLookup m (joinDots (part :: rest)) with
    | some cat => some (joinDots (part :: rest), cat)
    | none => parentLookup m rest

/-- Embeds `BlocklistManager.is_domain_blocked`: normalize, then exact match,
then the parent-suffix walk, then patterns in insertion order.  Returns
the Python `(is_blocked, category, reason)` triple. -/
def is_domain_blocked (s : Blocklist) (domain : String) :
    Bool × Option String × Option String :=
  let d := normalizeDomain domain
  match dictLookup s.blocked_domains d with
  | some cat => (true, some cat, some "Exact match")
  | none =>
    match parentLookup s.blocked_domains (pySplitDot d) with
    | some pc => (true, some pc.2, some ("Parent domain match: " ++ pc.1))
    | none =>
      match s.blocked_patterns.find? (fun pc => pc.1.search d) with
      | some pc => (true, some pc.2, some ("Pattern match: " ++ pc.1.pattern))
      | none => (false, none, none)

/-- Embeds `BlocklistManager.is_ip_blocked`: exact dict lookup only. -/
def is_ip_blocked (s : Blocklist) (ip : String) :
    Bool × Option String × Option String :=
  let i := pyStrip ip
  match dictLookup s.blocked_ips i with
  | some cat => (true, some cat, some "Exact match")
  | none => (false, none, none)

/-- Embeds `BlocklistManager.clear_category`: keep only the entries whose
category differs from `category`, in all three collections, then persist. -/
def clear_category (saveOk : Bool) (category : String) (s : Blocklist) :
    Bool × Blocklist :=
  (saveOk,
    { blocked_domains := s.blocked_domains.filter (fun e => !(e.2 == category))
      blocked_ips := s.blocked_ips.filter (fun e => !(e.2 == category))
      blocked_patterns := s.blocked_patterns.filter (fun e => !(e.2 == category)) })

/-- The content of the structured rule file: the three collections of
`{value, category}` entries.  (`export_to_file` always writes both keys of
every entry, so entries are plain pairs here.) -/
structure BlocklistData where
  domains : List (String × String)
  ips : List (String × String)
  patterns : List (String × String)

/-- The JSON document written by `BlocklistManager.export_to_file` with
`format='json'`: the `domains` and `ips` collections in dict iteration
order.  The written document has no `patterns` key, which a subsequent
`load_blocklist` reads back via `data.get('patterns', [])` as the empty
collection. -/
def exportDataJson (s : Blocklist) : BlocklistData :=
  { domains := s.blocked_domains
    ips := s.blocked_ips
    patterns := [] }

/-- Embeds `BlocklistManager.load_blocklist` on a parsed rule file: rebuild the
domain dict (lower-casing each value), the IP dict, and the pattern list
(compiling each pattern source with `compile`; patterns that fail to
compile are skipped with a warning). -/
def loadData (compile : String → Option RePattern) (d : BlocklistData) : Blocklist :=
  { blocked_domains := buildDict (d.domains.map (fun e => (pyLower e.1, e.2)))
    blocked_ips := buildDict d.ips
    blocked_patterns := d.patterns.filterMap (fun e => (compile e.1).map (fun p => (p, e.2))) }

/-- The spec's wording of `add_ip` validation, for comparison with the
implementation's `is_valid_ip`: \"dotted-quad structure (4 numeric octets,
0–255 each)\" — four dot-separated fields, each a nonempty string of
decimal digits whose value is at most 255. -/
def specValidDottedQuad (ip : String) : Bool :=
  let parts := pySplitDot ip
  parts.length == 4 && parts.all (fun p =>
    !p.toList.isEmpty && p.toList.all Char.isDigit && digitsToNat p.toList ≤ 255)

/-- The QNAME parsing loop of `FilterEngine._extract_dns_domain`: starting
at `pos`, read a length byte; `0` or a compression pointer (`>= 192`) ends
the name; otherwise, if the label fits in the remaining bytes, decode it
and continue past it, else stop.  Structural recursion on a fuel counter;
every iteration advances `pos` by at least two, so fuel equal to the
payload length (supplied by `extract_dns_domain`) is never exhausted. -/
def dnsLoop (p : List Nat) : Nat → Nat → List String → List String
  | 0, _, acc => acc
  | fuel + 1, pos, acc =>
    if pos < p.length then
      let len := p.getD pos 0
      if len = 0 then acc
      else if 192 ≤ len then acc
      else if pos + 1 + len ≤ p.length then
        dnsLoop p fuel (pos + 1 + len)
          (acc ++ [String.mk (utf8DecodeIgnore ((p.drop (pos + 1)).take len))])
      else acc
    else acc

/-- Embeds `FilterEngine._extract_dns_domain` on the packet's payload bytes.
`none` stands both for a missing/empty `payload` attribute and for the
function's `return None` paths.  (The `len(payload) < 13` guard subsumes
the emptiness check.) -/
def extract_dns_domain : Option (List Nat) → Option String
  | none => none
  | some p =>
    if p.length < 13 then none
    else
      let parts := dnsLoop p p.length 12 []
      if parts.isEmpty then none
      else some (pyLower (joinDots parts))

/-- The fields of a PyDivert packet that `_should_block_packet` reads.
`payload = none` models a packet without a (nonempty) `payload`
attribute.  Packets lacking port attributes are read as port `0` by the
source's `hasattr` guards; such packets are represented directly with
port `0`. -/
structure Packet where
  dst_addr : String
  src_addr : String
  dst_port : Nat
  src_port : Nat
  tcp : Bool
  udp : Bool
  payload : Option (List Nat)

/-- The `for line in payload_str.split('\r\n')` loop of the HTTP branch of
`_should_block_packet`: on each `host:` line (case-insensitive), take the
text after the first colon, strip it, drop a `:port` suffix, write the
IP → host mapping into the cache, and return a block verdict if the host
is blocked; otherwise keep scanning. -/
def scanHostLines (bl : Blocklist) (dst_ip : String) :
    List String → List (String × String) →
      (Bool × Option String) × List (String × String)
  | [], cache => ((false, none), cache)
  | line :: rest, cache =>
    if pyStartsWith "host:" (pyLower line) then
      let host := beforeFirstColon (pyStrip (afterFirstColon line))
      let cache1 := dictInsert cache dst_ip host
      let r := is_domain_blocked bl host
      if r.1 then
        ((true, some ("Blocked HTTP Host (" ++ pyStr r.2.1 ++ "): " ++ host ++
            " - " ++ pyStr r.2.2)), cache1)
      else scanHostLines bl dst_ip rest cache1
    else scanHostLines bl dst_ip rest cache

/-- The `Try to extract Host header` part of the HTTP branch of
`_should_block_packet` (port 80, TCP, payload present, request line is
`GET `/`POST `/`HEAD `).  The surrounding `try/except: pass` cannot fire
in the model (decoding with `errors='ignore'` never raises). -/
def httpHostPhase (bl : Blocklist) (pkt : Packet) (cache : List (String × String)) :
    (Bool × Option String) × List (String × String) :=
  if pkt.dst_port == 80 && pkt.tcp && pkt.payload.isSome then
    let pl := pkt.payload.getD []
    if (asciiBytes "GET ").isPrefixOf pl || (asciiBytes "POST ").isPrefixOf pl ||
        (asciiBytes "HEAD ").isPrefixOf pl then
      scanHostLines bl pkt.dst_addr
        ((splitOnCRLF (utf8DecodeIgnore pl)).map String.mk) cache
    else ((false, none), cache)
  else ((false, none), cache)

/-- Embeds `FilterEngine._should_block_packet`: the decision path for one packet,
returning the `(should_block, reason)` pair together with the updated
`dns_cache` (the method mutates `self.dns_cache` on DNS responses and on
extracted HTTP hosts). -/
def should_block_packet (bl : Blocklist) (cache : List (String × String))
    (pkt : Packet) : (Bool × Option String) × List (String × String) :=
  let protocol : String := if pkt.tcp then "TCP" else if pkt.udp then "UDP" else "OTHER"
  let ipRes := is_ip_blocked bl pkt.dst_addr
  if ipRes.1 then
    ((true, some ("Blocked IP (" ++ pyStr ipRes.2.1 ++ "): " ++ pyStr ipRes.2.2)), cache)
  else
    let dnsStep : Option (Bool × Option String) × List (String × String) :=
      if protocol == "UDP" && (pkt.dst_port == 53 || pkt.src_port == 53) then
        match extract_dns_domain pkt.payload with
        | some domain =>
          let cache1 := if pkt.src_port == 53 then dictInsert cache pkt.dst_addr domain else cache
          let r := is_domain_blocked bl domain
          if r.1 then
            (some (true, some ("Blocked DNS (" ++ pyStr r.2.1 ++ "): " ++ domain ++
              " - " ++ pyStr r.2.2)), cache1)
          else (none, cache1)
        | none => (none, cache)
      else (none, cache)
    match dnsStep.1 with
    | some verdict => (verdict, dnsStep.2)
    | none =>
      let cache1 := dnsStep.2
      if protocol == "TCP" && (pkt.dst_port == 80 || pkt.dst_port == 443) then
        match dictLookup cache1 pkt.dst_addr with
        | some domain =>
          let r := is_domain_blocked bl domain
          if r.1 then
            ((true, some ("Blocked HTTP/HTTPS to " ++ domain ++ " (" ++
              pyStr r.2.1 ++ "): " ++ pyStr r.2.2)), cache1)
          else httpHostPhase bl pkt cache1
        | none => httpHostPhase bl pkt cache1
      else ((false, none), cache1)

/-- In-memory state of `FilterEngine` (`src/network/filter_engine.py`):
the `running` flag, the `stats` dict (its three counters and
`start_time`), the `dns_cache` dict, and the shared blocklist manager.
The `filter_thread` and `divert_handle` fields are OS resources outside
the model. -/
structure FilterEngine where
  running : Bool
  packets_inspected : Nat
  packets_allowed : Nat
  packets_blocked : Nat
  start_time : Option Nat
  dns_cache : List (String × String)
  blocklist : Blocklist

/-- Embeds `FilterEngine.__init__` given the shared blocklist manager. -/
def FilterEngine.init (bl : Blocklist) : FilterEngine :=
  { running := false
    packets_inspected := 0
    packets_allowed := 0
    packets_blocked := 0
    start_time := none
    dns_cache := []
    blocklist := bl }

/-- Embeds `FilterEngine.start`.  Environment inputs: whether the PyDivert import
succeeded, the `filtering.enabled` config key, the current time
(`datetime.now()`), and whether launching the filter thread succeeds
(the `except` branch of `start` un-sets `running` and reports failure;
`start_time` has already been written at that point). -/
def FilterEngine.start (pydivertAvailable filteringEnabled : Bool) (now : Nat)
    (threadStartOk : Bool) (e : FilterEngine) : Bool × FilterEngine :=
  if !pydivertAvailable then (false, e)
  else if !filteringEnabled then (false, e)
  else if e.running then (true, e)
  else
    let e1 := { e with running := true, start_time := some now }
    if threadStartOk then (true, e1) else (false, { e1 with running := false })

/-- Embeds `FilterEngine.stop`.  Closing the WinDivert handle and joining the
filter thread are OS effects outside the model; the `except` branch of
`stop` (an exception while closing) is not modelled, so the success path
is taken. -/
def FilterEngine.stop (e : FilterEngine) : Bool × FilterEngine :=
  if !e.running then (true, e)
  else (true, { e with running := false })

/-- The list of dot-suffixes that the parent-domain walk of
`is_domain_blocked` tries, in the order it tries them:
`'.'.join(parts[i:])` for `i in range(len(parts))`. -/
def tailJoins : List String → List String
  | [] => []
  | part :: rest => joinDots (part :: rest) :: tailJoins rest

/-- A DNS response payload whose question name decodes to
`malware.test`: a 12-byte header, then `[7]malware[4]test[0]`. -/
def dnsResponsePayload : List Nat :=
  List.replicate 12 0 ++ [7] ++ asciiBytes "malware" ++ [4] ++ asciiBytes "test" ++ [0]

/-- A truncated DNS payload: a 12-byte header, a complete label
`[3]abc`, then a length byte `5` with only two bytes (`de`) remaining. -/
def dnsTruncPayload : List Nat :=
  List.replicate 12 0 ++ [3] ++ asciiBytes "abc" ++ [5] ++ asciiBytes "de"

/-- Rule store holding only `add_domain("malware.test", "malware")`. -/
def blMalware : Blocklist :=
  ⟨[("malware.test", "malware")], [], []⟩

/-- Rule store holding only the domain rule `ads.com → advertising`. -/
def blAds : Blocklist :=
  ⟨[("ads.com", "advertising")], [], []⟩

/-- Rule store holding only the domain rule `evil.com → malware`. -/
def blEvil : Blocklist :=
  ⟨[("evil.com", "malware")], [], []⟩

/-- The UDP DNS-response packet of the end-to-end scenario: source port
53, destination `203.0.113.5`, payload decoding to `malware.test`. -/
def pktDnsResponse : Packet :=
  ⟨"203.0.113.5", "9.9.9.9", 55555, 53, false, true, some dnsResponsePayload⟩

/-- The follow-up TCP packet to `203.0.113.5:443` with no payload. -/
def pktTcp443 : Packet :=
  ⟨"203.0.113.5", "10.0.0.2", 443, 44444, true, false, none⟩

/-- A TCP port-80 packet whose payload is an HTTP GET with
`Host: evil.com`. -/
def pktHttpHost : Packet :=
  ⟨"1.2.3.4", "10.0.0.2", 80, 40000, true, false,
    some (asciiBytes "GET / HTTP/1.1\r\nHost: evil.com\r\n\r\n")⟩

/-- A running engine with nonzero statistics, a cache entry and a rule
store entry. -/
def engineRunning : FilterEngine :=
  { running := true
    packets_inspected := 5
    packets_allowed := 3
    packets_blocked := 2
    start_time := some 1
    dns_cache := [("1.2.3.4", "a.example")]
    blocklist := blAds }

/-- Sample store for exercising the mutating operations: one domain, one
IP, no patterns. -/
def blSample : Blocklist :=
  ⟨[("old.com", "custom")], [("2.2.2.2", "custom")], []⟩

/-- A sample compiled pattern whose matcher tests for the prefix
`evil`. -/
def patEvil : RePattern :=
  ⟨"evil", fun s => pyStartsWith "evil" s⟩

/-- Store with lowercase, duplicate-free exact rules and one pattern,
for the export round-trip witness. -/
def blExportW : Blocklist :=
  ⟨[("a.com", "malware"), ("b.com", "phishing")], [("1.2.3.4", "custom")],
    [(patEvil, "custom")]⟩

/-- A compile function for reloading: no pattern source compiles (the
exported document contains no patterns, so it is never consulted on the
round-trip). -/
def compileNone : String → Option RePattern :=
  fun _ => none

/-! ## Helper lemmas -/

theorem find?_map_update (m : List (String × String)) (k v : String)
    (h : m.any (fun e => e.1 == k) = true) :
    (m.map (fun e => if e.1 == k then (k, v) else e)).find? (fun e => e.1 == k) =
      some (k, v) := by
  induction m with
  | nil => simp at h
  | cons e t ih =>
    simp only [List.any_cons] at h
    by_cases he : (e.1 == k) = true
    · simp only [List.map_cons, if_pos he]
      rw [List.find?_cons_of_pos]
      simp
    · simp only [List.map_cons, if_neg he]
      rw [List.find?_cons_of_neg]
      · apply ih
        simpa [he] using h
      · simpa using he

theorem find?_append_new (m : List (String × String)) (k v : String)
    (h : m.any (fun e => e.1 == k) = false) :
    (m ++ [(k, v)]).find? (fun e => e.1 == k) = some (k, v) := by
  induction m with
  | nil => simp [List.find?]
  | cons e t ih =>
    simp only [List.any_cons, Bool.or_eq_false_iff] at h
    rw [List.cons_append, List.find?_cons_of_neg]
    · exact ih h.2
    · simp [h.1]

/-- Reading back the key just written into a dict yields the written
value. -/
theorem dictLookup_dictInsert_self (m : List (String × String)) (k v : String) :
    dictLookup (dictInsert m k v) k = some v := by
  unfold dictLookup dictInsert
  by_cases h : m.any (fun e => e.1 == k) = true
  · rw [if_pos h, find?_map_update m k v h]
    rfl
  · rw [if_neg h, find?_append_new m k v (Bool.eq_false_iff.mpr h)]
    rfl

/-- A deleted key is no longer present. -/
theorem dictLookup_dictErase_self (m : List (String × String)) (k : String) :
    dictLookup (dictErase m k) k = none := by
  unfold dictLookup dictErase
  rw [List.find?_eq_none.mpr]
  · rfl
  · intro e he
    have := (List.mem_filter.mp he).2
    simpa using this

/-- The function `listSplitOnChar` never returns the empty list. -/
theorem listSplitOnChar_ne_nil (c : Char) (l : List Char) :
    listSplitOnChar c l ≠ [] := by
  cases l with
  | nil => simp [listSplitOnChar]
  | cons x xs =>
    unfold listSplitOnChar
    rcases listSplitOnChar c xs with _ | ⟨h, t⟩
    · simp
    · by_cases hx : x = c <;> simp [hx]

/-- Splitting on a character and joining with it are inverse. -/
theorem joinList_listSplitOnChar (c : Char) :
    ∀ l : List Char, joinList c (listSplitOnChar c l) = l := by
  intro l
  induction l with
  | nil => rfl
  | cons x xs ih =>
    rcases hs : listSplitOnChar c xs with _ | ⟨h, t⟩
    · exact absurd hs (listSplitOnChar_ne_nil c xs)
    · rw [hs] at ih
      show joinList c (listSplitOnChar c (x :: xs)) = x :: xs
      unfold listSplitOnChar
      rw [hs]
      by_cases hx : x = c
      · subst hx
        simp only [if_pos rfl]
        rcases t with _ | ⟨y, t'⟩ <;>
          simpa [joinList] using ih
      · simp only [if_neg hx]
        rcases t with _ | ⟨y, t'⟩
        · simp only [joinList] at ih ⊢
          rw [ih]
        · simp only [joinList] at ih ⊢
          simp only [List.cons_append, ih]

/-- Identity `'.'.join(domain.split('.')) = domain`. -/
theorem joinDots_pySplitDot (s : String) : joinDots (pySplitDot s) = s := by
  unfold joinDots pySplitDot
  rw [List.map_map]
  have h : (String.toList ∘ String.mk) = id := by
    funext l
    rfl
  rw [h, List.map_id, joinList_listSplitOnChar]
  cases s
  rfl

/-- If the parent-domain walk finds nothing, no tried suffix is a key of
the domain dict. -/
theorem parentLookup_eq_none (m : List (String × String)) :
    ∀ parts, parentLookup m parts = none →
      ∀ t ∈ tailJoins parts, dictLookup m t = none := by
  intro parts
  induction parts with
  | nil => intro _ t ht; simp [tailJoins] at ht
  | cons part rest ih =>
    intro h t ht
    unfold parentLookup at h
    simp only [tailJoins, List.mem_cons] at ht
    rcases hl : dictLookup m (joinDots (part :: rest)) with _ | cat
    · rw [hl] at h
      rcases ht with rfl | ht
      · exact hl
      · exact ih h t ht
    · rw [hl] at h
      simp at h

/-- If some tried suffix is a key, the walk returns the first such suffix
with its category. -/
theorem parentLookup_first (m : List (String × String)) :
    ∀ parts S cat,
      (tailJoins parts).find? (fun t => (dictLookup m t).isSome) = some S →
      dictLookup m S = some cat →
      parentLookup m parts = some (S, cat) := by
  intro parts
  induction parts with
  | nil => intro S cat h _; simp [tailJoins, List.find?] at h
  | cons part rest ih =>
    intro S cat hfind hS
    unfold parentLookup
    simp only [tailJoins] at hfind
    rcases hl : dictLookup m (joinDots (part :: rest)) with _ | cat'
    · rw [List.find?_cons_of_neg] at hfind
      · rw [ih S cat hfind hS]
      · simp [hl]
    · rw [List.find?_cons_of_pos] at hfind
      · cases hfind
        rw [hS] at hl
        cases hl
        rfl
      · simp [hl]

/-- A stored pattern that matches the normalized domain forces a block
verdict (whatever the earlier branches do). -/
theorem blocked_of_pattern_mem (s : Blocklist) (D : String) (p : RePattern)
    (c : String) (hmem : (p, c) ∈ s.blocked_patterns)
    (hsearch : p.search (normalizeDomain D) = true) :
    (is_domain_blocked s D).1 = true := by
  unfold is_domain_blocked
  rcases h1 : dictLookup s.blocked_domains (normalizeDomain D) with _ | cat
  · rcases h2 : parentLookup s.blocked_domains (pySplitDot (normalizeDomain D)) with _ | pc
    · rcases h3 : s.blocked_patterns.find? (fun pc => pc.1.search (normalizeDomain D)) with _ | pc
      · exfalso
        have := List.find?_eq_none.mp h3 (p, c) hmem
        simp [hsearch] at this
      · simp only [h1, h2, h3]
    · simp only [h1, h2]
  · simp only [h1]

/-- A decimal digit is not Python whitespace. -/
theorem isDigit_not_whitespace (c : Char) (h : c.isDigit = true) :
    pyWhitespaceChar c = false := by
  by_contra hw
  rw [Bool.not_eq_false] at hw
  unfold pyWhitespaceChar at hw
  simp only [Bool.or_eq_true, decide_eq_true_eq] at hw
  rcases hw with ((((rfl | rfl) | rfl) | rfl) | rfl) | rfl <;> exact absurd h (by decide)

theorem dropWhile_false {α : Type} (p : α → Bool) (l : List α)
    (h : ∀ x ∈ l, p x = false) : l.dropWhile p = l := by
  cases l with
  | nil => rfl
  | cons x xs =>
    have hx := h x (List.mem_cons_self x xs)
    rw [List.dropWhile_cons, if_neg (by simp [hx])]

/-- Stripping whitespace from an all-digit string is the identity. -/
theorem stripList_all_digits (l : List Char) (h : ∀ c ∈ l, c.isDigit = true) :
    stripList l = l := by
  unfold stripList
  rw [dropWhile_false _ _ (fun c hc => isDigit_not_whitespace c (h c hc)),
    dropWhile_false _ _ (fun c hc =>
      isDigit_not_whitespace c (h c (List.mem_reverse.mp hc))),
    List.reverse_reverse]

theorem pyDigitsAux_all_digits :
    ∀ (l : List Char) (acc : Nat), (∀ c ∈ l, c.isDigit = true) →
      pyDigitsAux l acc = some (l.foldl (fun a c => 10 * a + (c.toNat - 48)) acc) := by
  intro l
  induction l with
  | nil => intro acc _; rfl
  | cons c rest ih =>
    intro acc h
    unfold pyDigitsAux
    rw [if_pos (h c (List.mem_cons_self c rest)), List.foldl_cons]
    exact ih _ (fun d hd => h d (List.mem_cons_of_mem c hd))

theorem pyNatDigits_all_digits (l : List Char) (hne : l ≠ [])
    (h : ∀ c ∈ l, c.isDigit = true) :
    pyNatDigits l = some (digitsToNat l) := by
  cases l with
  | nil => exact absurd rfl hne
  | cons c rest =>
    simp only [pyNatDigits]
    rw [if_pos (h c (List.mem_cons_self c rest)),
      pyDigitsAux_all_digits rest _ (fun d hd => h d (List.mem_cons_of_mem c hd))]
    unfold digitsToNat
    rw [List.foldl_cons]
    norm_num

/-- Python `int` on an all-digit string returns its decimal value. -/
theorem pyInt?_all_digits (l : List Char) (hne : l ≠ [])
    (h : ∀ c ∈ l, c.isDigit = true) :
    pyInt? (String.mk l) = some (Int.ofNat (digitsToNat l)) := by
  unfold pyInt?
  have hl : (String.mk l).toList = l := rfl
  rw [hl, stripList_all_digits l h]
  cases l with
  | nil => exact absurd rfl hne
  | cons c rest =>
    have hc := h c (List.mem_cons_self c rest)
    have h1 : ¬(c = '+') := by intro e; rw [e] at hc; exact absurd hc (by decide)
    have h2 : ¬(c = '-') := by intro e; rw [e] at hc; exact absurd hc (by decide)
    simp only [pyIntOfList]
    rw [if_neg h1, if_neg h2, pyNatDigits_all_digits (c :: rest) hne h]
    rfl

/-- The spec's dotted-quad validation implies the implementation's
validation. -/
theorem is_valid_ip_of_spec (ip : String) (h : specValidDottedQuad ip = true) :
    is_valid_ip ip = true := by
  unfold specValidDottedQuad at h
  unfold is_valid_ip
  simp only [Bool.and_eq_true, beq_iff_eq] at h
  obtain ⟨hlen, hall⟩ := h
  rw [if_neg (by simp [hlen])]
  rw [List.all_eq_true] at hall ⊢
  intro p hp
  have hspec := hall p hp
  simp only [Bool.and_eq_true, Bool.not_eq_true', List.isEmpty_eq_false,
    List.all_eq_true, decide_eq_true_eq] at hspec
  obtain ⟨⟨hne, hdig⟩, hbound⟩ := hspec
  have hint : pyInt? p = some (Int.ofNat (digitsToNat p.toList)) :=
    pyInt?_all_digits p.toList hne hdig
  rw [hint]
  rw [decide_eq_true_eq]
  constructor
  · exact Int.ofNat_nonneg _
  · exact Int.ofNat_le.mpr hbound

theorem foldl_dictInsert (l : List (String × String)) :
    ∀ acc, (l.map Prod.fst).Nodup → (∀ e ∈ acc, e.1 ∉ l.map Prod.fst) →
      l.foldl (fun m e => dictInsert m e.1 e.2) acc = acc ++ l := by
  induction l with
  | nil => intro acc _ _; simp
  | cons e t ih =>
    intro acc hnd hdisj
    simp only [List.map_cons, List.nodup_cons] at hnd
    simp only [List.foldl_cons]
    have hnotany : ¬(acc.any fun a => a.1 == e.1) = true := by
      intro hany
      rw [List.any_eq_true] at hany
      obtain ⟨a, ha, hbeq⟩ := hany
      have haeq : a.1 = e.1 := by simpa using hbeq
      exact hdisj a ha (by simp [haeq])
    have hins : dictInsert acc e.1 e.2 = acc ++ [e] := by
      unfold dictInsert
      rw [if_neg hnotany]
    have hdisj2 : ∀ a ∈ acc ++ [e], a.1 ∉ List.map Prod.fst t := by
      intro a ha
      rcases List.mem_append.mp ha with h1 | h2
      · intro hm
        apply hdisj a h1
        simp only [List.map_cons, List.mem_cons]
        exact Or.inr hm
      · have hae : a = e := by simpa using h2
        rw [hae]
        exact hnd.1
    rw [hins, ih (acc ++ [e]) hnd.2 hdisj2]
    simp

/-- Rebuilding a dict from entries with pairwise-distinct keys reproduces
the entry list exactly. -/
theorem buildDict_eq_self (l : List (String × String))
    (h : (l.map Prod.fst).Nodup) : buildDict l = l := by
  unfold buildDict
  rw [foldl_dictInsert l [] h (by simp)]
  simp

/-- The full (normalized) domain is among the suffixes the walk tries
(it is the first one). -/
theorem self_mem_tailJoins (d : String) : d ∈ tailJoins (pySplitDot d) := by
  rcases hsp : pySplitDot d with _ | ⟨q, qs⟩
  · exfalso
    have hne := listSplitOnChar_ne_nil '.' d.toList
    rw [pySplitDot, List.map_eq_nil_iff] at hsp
    exact hne hsp
  · have hd := joinDots_pySplitDot d
    rw [hsp] at hd
    rw [← hsp]
    rw [hsp]
    simp only [tailJoins]
    exact List.mem_cons.mpr (Or.inl hd.symm)

/-- If no tried suffix is a key, the walk finds nothing. -/
theorem parentLookup_none_of_all (m : List (String × String)) :
    ∀ parts, (∀ t ∈ tailJoins parts, dictLookup m t = none) →
      parentLookup m parts = none := by
  intro parts
  induction parts with
  | nil => intro _; rfl
  | cons part rest ih =>
    intro h
    unfold parentLookup
    rw [h (joinDots (part :: rest)) (by simp [tailJoins])]
    exact ih (fun t ht => h t (by simp [tailJoins, ht]))

/-! ## Claims -/

/-- C6: with the domain rule `malware.test → malware` in the Rule Store,
processing a UDP DNS-response packet (source port 53) whose payload
decodes to `malware.test` and whose destination IP is `203.0.113.5`
records that IP → domain mapping in the Identity Cache, and a subsequent
TCP packet to `203.0.113.5:443` with no payload is blocked with a reason
citing category `malware`, purely via the cache path. -/
theorem C6_end_to_end :
    (should_block_packet blMalware [] pktDnsResponse).2 =
      [("203.0.113.5", "malware.test")] ∧
    should_block_packet blMalware
        (should_block_packet blMalware [] pktDnsResponse).2 pktTcp443 =
      ((true, some "Blocked HTTP/HTTPS to malware.test (malware): Exact match"),
        [("203.0.113.5", "malware.test")]) ∧
    strContains "Blocked HTTP/HTTPS to malware.test (malware): Exact match"
      "(malware)" = true := by
  refine ⟨by decide, by decide, by decide⟩

/-- C10: `clear_category` keeps exactly the entries of other categories,
unchanged and in their original relative order, in all three
collections. -/
theorem C10_clear_category (s : Blocklist) (category : String) (saveOk : Bool) :
    (∀ e, e ∈ ((clear_category saveOk category s).2).blocked_domains ↔
        e ∈ s.blocked_domains ∧ e.2 ≠ category) ∧
    (∀ e, e ∈ ((clear_category saveOk category s).2).blocked_ips ↔
        e ∈ s.blocked_ips ∧ e.2 ≠ category) ∧
    (∀ e, e ∈ ((clear_category saveOk category s).2).blocked_patterns ↔
        e ∈ s.blocked_patterns ∧ e.2 ≠ category) ∧
    ((clear_category saveOk category s).2).blocked_domains.Sublist s.blocked_domains ∧
    ((clear_category saveOk category s).2).blocked_ips.Sublist s.blocked_ips ∧
    ((clear_category saveOk category s).2).blocked_patterns.Sublist s.blocked_patterns := by
  refine ⟨?_, ?_, ?_, ?_, ?_, ?_⟩
  · intro e
    simp [clear_category, List.mem_filter]
  · intro e
    simp [clear_category, List.mem_filter]
  · intro e
    simp [clear_category, List.mem_filter]
  · simp [clear_category]
  · simp [clear_category]
  · simp [clear_category]

/-- C1 (amended): stopping and then successfully restarting the engine
preserves the `packets_*` counters (they are NOT reset to zero), preserves
every Identity Cache and Rule Store entry, and only sets `running` and a
fresh `start_time`. -/
theorem C1_restart_preserves_counters (e : FilterEngine) (now : Nat) :
    (FilterEngine.stop e).1 = true ∧
    (FilterEngine.start true true now true (FilterEngine.stop e).2).1 = true ∧
    (FilterEngine.start true true now true (FilterEngine.stop e).2).2 =
      { e with running := true, start_time := some now } := by
  obtain ⟨r, pi, pa, pb, st, dc, bl⟩ := e
  by_cases h : r <;>
    simp [FilterEngine.stop, FilterEngine.start, h]

/-- C1 (counterexample): a running engine with counters 5/3/2 is stopped
and successfully restarted, and the counters still read 5/3/2 afterwards
instead of the zeroes the claim requires. -/
theorem C1_counterexample :
    (FilterEngine.stop engineRunning).1 = true ∧
    (FilterEngine.start true true 7 true (FilterEngine.stop engineRunning).2).1 = true ∧
    (FilterEngine.start true true 7 true
        (FilterEngine.stop engineRunning).2).2.packets_inspected = 5 ∧
    (FilterEngine.start true true 7 true
        (FilterEngine.stop engineRunning).2).2.packets_allowed = 3 ∧
    (FilterEngine.start true true 7 true
        (FilterEngine.stop engineRunning).2).2.packets_blocked = 2 := by
  refine ⟨rfl, rfl, rfl, rfl, rfl⟩

/-- C8 (amended): when the engine is already Running, `start()` leaves the
state untouched, but its return value is success only when PyDivert is
available and `filtering.enabled` holds: the availability and policy
checks run before the Running check, so e.g. `filtering.enabled = false`
makes `start()` report failure even while Running. -/
theorem C8_start_when_running (e : FilterEngine) (pd en tok : Bool) (now : Nat)
    (h : e.running = true) :
    FilterEngine.start pd en now tok e = (pd && en, e) := by
  unfold FilterEngine.start
  cases pd <;> cases en <;> simp [h]

/-- C8 (witness): on a concrete running engine with PyDivert available and
filtering enabled, `start()` is a no-op returning success. -/
theorem C8_witness :
    engineRunning.running = true ∧
    FilterEngine.start true true 0 true engineRunning = (true && true, engineRunning) :=
  ⟨rfl, C8_start_when_running engineRunning true true true 0 rfl⟩

/-- C8 (counterexample): the engine is Running, but because
`filtering.enabled` is now false, `start()` returns failure rather than
the success the claim requires. -/
theorem C8_counterexample :
    engineRunning.running = true ∧
    FilterEngine.start true false 0 true engineRunning = (false, engineRunning) :=
  ⟨rfl, rfl⟩

/-- C4 (amended): when the very first label is truncated (its length byte
exceeds the bytes remaining), `extract_dns_domain` returns none; in
general the function stops at the truncation point and returns the labels
completed before it, so truncation after a complete label yields that
partial domain rather than none (see the counterexample); no error is ever
raised. -/
theorem C4_truncated_first_label (p : List Nat) (h13 : 13 ≤ p.length)
    (hpos : 1 ≤ p.getD 12 0) (hcomp : p.getD 12 0 < 192)
    (htrunc : p.length < 13 + p.getD 12 0) :
    extract_dns_domain (some p) = none := by
  simp only [extract_dns_domain]
  rw [if_neg (show ¬(p.length < 13) by omega)]
  obtain ⟨n, hn⟩ : ∃ n, p.length = n + 1 := ⟨p.length - 1, by omega⟩
  have hfix : dnsLoop p p.length 12 [] = dnsLoop p (n + 1) 12 [] := by rw [hn]
  rw [hfix]
  simp only [dnsLoop]
  rw [if_pos (show 12 < p.length by omega),
    if_neg (show ¬(p.getD 12 0 = 0) by omega),
    if_neg (show ¬(192 ≤ p.getD 12 0) by omega),
    if_neg (show ¬(12 + 1 + p.getD 12 0 ≤ p.length) by omega)]
  simp

/-- C4 (witness): a payload whose first label length byte (9) exceeds the
zero remaining bytes yields none. -/
theorem C4_witness :
    13 ≤ (List.replicate 12 0 ++ [9] : List Nat).length ∧
    extract_dns_domain (some (List.replicate 12 0 ++ [9])) = none :=
  ⟨by decide, C4_truncated_first_label _ (by decide) (by decide) (by decide) (by decide)⟩

/-- C4 (counterexample): `dnsTruncPayload` is truncated (the length byte 5
at offset 16 exceeds the 2 remaining bytes, 16 + 1 + 5 > 19), yet
`extract_dns_domain` returns the partial domain `abc` instead of the none
the claim requires. -/
theorem C4_counterexample :
    dnsTruncPayload.length = 19 ∧ dnsTruncPayload.getD 16 0 = 5 ∧
    extract_dns_domain (some dnsTruncPayload) = some "abc" := by
  refine ⟨by decide, by decide, by decide⟩

/-- C2 (amended): a JSON `export_to_file` followed by a fresh
`load_blocklist` of the exported document reproduces the exact-match
domain and IP dicts exactly (given lowercase domain keys, as every store
reachable through `add_domain`/`load_blocklist` has, and dict-unique
keys), but the pattern list of the reloaded store is empty: the exported
JSON has no `patterns` collection, so patterns do not round-trip. -/
theorem C2_roundtrip (s : Blocklist) (compile : String → Option RePattern)
    (hlow : s.blocked_domains.all (fun e => pyLower e.1 == e.1) = true)
    (hnd : (s.blocked_domains.map Prod.fst).Nodup)
    (hni : (s.blocked_ips.map Prod.fst).Nodup) :
    loadData compile (exportDataJson s) = { s with blocked_patterns := [] } := by
  obtain ⟨bd, bi, bp⟩ := s
  simp only [List.all_eq_true] at hlow
  unfold loadData exportDataJson
  simp only [Blocklist.mk.injEq]
  refine ⟨?_, ?_, rfl⟩
  · have hmap : bd.map (fun e => (pyLower e.1, e.2)) = bd := by
      have hcg : ∀ e ∈ bd, (pyLower e.1, e.2) = e := by
        intro e he
        have hle := hlow e he
        simp only [beq_iff_eq] at hle
        rw [hle]
      calc bd.map (fun e => (pyLower e.1, e.2)) = bd.map id := List.map_congr_left hcg
        _ = bd := List.map_id bd
    rw [hmap]
    exact buildDict_eq_self bd hnd
  · exact buildDict_eq_self bi hni

/-- C2 (witness): a concrete store with two domain rules, one IP rule and
one pattern rule; reloading its JSON export reproduces the domain and IP
dicts and drops the pattern. -/
theorem C2_witness :
    blExportW.blocked_domains.all (fun e => pyLower e.1 == e.1) = true ∧
    loadData compileNone (exportDataJson blExportW) =
      { blExportW with blocked_patterns := [] } :=
  ⟨by decide, C2_roundtrip blExportW compileNone (by decide) (by decide) (by decide)⟩

/-- C2 (counterexample): the original store has one pattern rule, but the
store reconstructed by exporting and freshly loading has none — the
pattern list does not survive the round-trip, contrary to the claim. -/
theorem C2_counterexample :
    blExportW.blocked_patterns.length = 1 ∧
    (loadData compileNone (exportDataJson blExportW)).blocked_patterns.length = 0 :=
  ⟨rfl, rfl⟩

/-- C5 (amended): for a TCP packet to port 80 whose destination IP has a
cached domain, the engine first evaluates the cached domain (the IP rule
check runs before it and must not fire); when that cached domain is
blocked, the verdict comes from the cache alone — Host-header extraction
is skipped and the cache is unchanged.  When the cached domain is NOT
blocked, however, the code goes on to attempt Host-header extraction and
may overwrite the cache entry (see the counterexample). -/
theorem C5_cache_hit_blocked (bl : Blocklist) (cache : List (String × String))
    (pkt : Packet) (dom c r : String)
    (htcp : pkt.tcp = true) (hport : pkt.dst_port = 80)
    (hip : (is_ip_blocked bl pkt.dst_addr).1 = false)
    (hc : dictLookup cache pkt.dst_addr = some dom)
    (hd : is_domain_blocked bl dom = (true, some c, some r)) :
    should_block_packet bl cache pkt =
      ((true, some ("Blocked HTTP/HTTPS to " ++ dom ++ " (" ++ c ++ "): " ++ r)),
        cache) := by
  unfold should_block_packet
  rw [htcp, hport]
  simp [hip, hc, hd, pyStr]

/-- C5 (witness): concrete instance — destination `1.2.3.4` has cached
domain `evil.com`, which is blocked; the packet is blocked via the cache
and the cache is unchanged. -/
theorem C5_witness :
    should_block_packet blEvil [("1.2.3.4", "evil.com")]
        ⟨"1.2.3.4", "10.0.0.2", 80, 40000, true, false, none⟩ =
      ((true, some ("Blocked HTTP/HTTPS to " ++ "evil.com" ++ " (" ++ "malware" ++ "): " ++ "Exact match")),
        [("1.2.3.4", "evil.com")]) :=
  C5_cache_hit_blocked blEvil [("1.2.3.4", "evil.com")] _ "evil.com" "malware"
    "Exact match" rfl rfl (by decide) (by decide) (by decide)

/-- C5 (counterexample): destination `1.2.3.4` has the cached domain
`good.com` (not blocked); contrary to the claim, the engine proceeds to
extract the HTTP Host header `evil.com`, blocks on it, and overwrites the
cache entry for `1.2.3.4`. -/
theorem C5_counterexample :
    dictLookup [("1.2.3.4", "good.com")] pktHttpHost.dst_addr = some "good.com" ∧
    should_block_packet blEvil [("1.2.3.4", "good.com")] pktHttpHost =
      ((true, some "Blocked HTTP Host (malware): evil.com - Exact match"),
        [("1.2.3.4", "evil.com")]) :=
  ⟨by decide, by decide⟩

/-- C3 (amended): with a domain rule on suffix `S`: (1) every domain whose
dot-suffix walk reaches `S` (i.e. `D = S` or a dot-delimited subdomain of
`S`) is blocked; (2) when the normalized domain equals `S` the reason is
the fixed string `Exact match`, which does not name `S`; (3) when `S` is
the first suffix in the walk with a rule and differs from the domain
itself, the reason is `Parent domain match: S`, citing `S`; (4) a domain
none of whose dot-suffixes carries a rule (in particular one merely
containing `S` as a substring, like `notads.com` for rule `ads.com`) and
which no pattern matches is not blocked. -/
theorem C3_suffix_matching (bl : Blocklist) (S cat D : String)
    (hS : dictLookup bl.blocked_domains S = some cat) :
    (S ∈ tailJoins (pySplitDot (normalizeDomain D)) →
      (is_domain_blocked bl D).1 = true) ∧
    (normalizeDomain D = S →
      is_domain_blocked bl D = (true, some cat, some "Exact match")) ∧
    ((tailJoins (pySplitDot (normalizeDomain D))).find?
        (fun t => (dictLookup bl.blocked_domains t).isSome) = some S →
      S ≠ normalizeDomain D →
      is_domain_blocked bl D =
        (true, some cat, some ("Parent domain match: " ++ S))) ∧
    ((∀ t ∈ tailJoins (pySplitDot (normalizeDomain D)),
        dictLookup bl.blocked_domains t = none) →
      (∀ pc ∈ bl.blocked_patterns, pc.1.search (normalizeDomain D) = false) →
      (is_domain_blocked bl D).1 = false) := by
  refine ⟨?_, ?_, ?_, ?_⟩
  · intro hmem
    unfold is_domain_blocked
    rcases h1 : dictLookup bl.blocked_domains (normalizeDomain D) with _ | cat'
    · rcases h2 : parentLookup bl.blocked_domains (pySplitDot (normalizeDomain D)) with _ | pc
      · exfalso
        have := parentLookup_eq_none bl.blocked_domains _ h2 S hmem
        rw [this] at hS
        cases hS
      · simp only [h1, h2]
    · simp only [h1]
  · intro hEq
    unfold is_domain_blocked
    simp only [hEq, hS]
  · intro hfind hne
    have h1 : dictLookup bl.blocked_domains (normalizeDomain D) = none := by
      rcases hx : dictLookup bl.blocked_domains (normalizeDomain D) with _ | cx
      · rfl
      · exfalso
        rcases hsp : pySplitDot (normalizeDomain D) with _ | ⟨q, qs⟩
        · have hnn := listSplitOnChar_ne_nil '.' (normalizeDomain D).toList
          rw [pySplitDot, List.map_eq_nil_iff] at hsp
          exact hnn hsp
        · have hj := joinDots_pySplitDot (normalizeDomain D)
          rw [hsp] at hj
          rw [hsp] at hfind
          simp only [tailJoins] at hfind
          rw [hj] at hfind
          rw [List.find?_cons_of_pos _ (by simp [hx])] at hfind
          exact hne (by injection hfind with h; exact h.symm)
    have hpl := parentLookup_first bl.blocked_domains
      (pySplitDot (normalizeDomain D)) S cat hfind hS
    unfold is_domain_blocked
    simp only [h1, hpl]
  · intro hall hpat
    have h1 : dictLookup bl.blocked_domains (normalizeDomain D) = none :=
      hall _ (self_mem_tailJoins (normalizeDomain D))
    have h2 : parentLookup bl.blocked_domains (pySplitDot (normalizeDomain D)) = none :=
      parentLookup_none_of_all bl.blocked_domains _ hall
    have h3 : bl.blocked_patterns.find?
        (fun pc => pc.1.search (normalizeDomain D)) = none :=
      List.find?_eq_none.mpr (fun pc hm => by simp [hpat pc hm])
    unfold is_domain_blocked
    simp only [h1, h2, h3]

/-- C3 (witness): with the single rule `ads.com → advertising`:
`x.ads.com` is blocked, `ads.com` itself is blocked with reason
`Exact match`, and `notads.com` is not blocked. -/
theorem C3_witness :
    (is_domain_blocked blAds "x.ads.com").1 = true ∧
    is_domain_blocked blAds "ads.com" = (true, some "advertising", some "Exact match") ∧
    (is_domain_blocked blAds "notads.com").1 = false :=
  ⟨(C3_suffix_matching blAds "ads.com" "advertising" "x.ads.com" (by decide)).1
      (by decide),
    (C3_suffix_matching blAds "ads.com" "advertising" "ads.com" (by decide)).2.1
      (by decide),
    (C3_suffix_matching blAds "ads.com" "advertising" "notads.com" (by decide)).2.2.2
      (by decide) (by decide)⟩

/-- C3 (counterexample): for `D = S = ads.com` the claim requires a reason
citing `S`, but the returned reason is the fixed string `Exact match`,
which does not contain `ads.com`. -/
theorem C3_counterexample :
    is_domain_blocked blAds "ads.com" = (true, some "advertising", some "Exact match") ∧
    strContains "Exact match" "ads.com" = false :=
  ⟨by decide, by decide⟩

/-- C9 (amended): `add_ip` validates each dot-separated field of the
stripped input with Python `int()`, so every spec-level dotted quad (four
nonempty all-digit fields with value at most 255) is accepted and stored,
`add_ip("999.1.1.1")` fails leaving the store unchanged, and
`add_ip("1.1.1.1")` succeeds (given the persist succeeds) after which
`is_ip_blocked("1.1.1.1")` reports it blocked; but because `int()` also
accepts signs, inner underscores and surrounding whitespace, some strings
that are not plain dotted quads are accepted as well (see the
counterexample). -/
theorem C9_add_ip_validation :
    (∀ (ip cat : String) (s : Blocklist) (sv : Bool),
      specValidDottedQuad (pyStrip ip) = true →
        add_ip sv ip cat s =
          (sv, { s with blocked_ips := dictInsert s.blocked_ips (pyStrip ip) cat })) ∧
    (∀ (cat : String) (s : Blocklist) (sv : Bool),
      add_ip sv "999.1.1.1" cat s = (false, s)) ∧
    (∀ (cat : String) (s : Blocklist),
      add_ip true "1.1.1.1" cat s =
        (true, { s with blocked_ips := dictInsert s.blocked_ips "1.1.1.1" cat }) ∧
      (is_ip_blocked { s with blocked_ips := dictInsert s.blocked_ips "1.1.1.1" cat }
          "1.1.1.1").1 = true) := by
  refine ⟨?_, ?_, ?_⟩
  · intro ip cat s sv hspec
    unfold add_ip
    simp [is_valid_ip_of_spec _ hspec]
  · intro cat s sv
    have hv : is_valid_ip (pyStrip "999.1.1.1") = false := by decide
    unfold add_ip
    simp [hv]
  · intro cat s
    have hv : is_valid_ip (pyStrip "1.1.1.1") = true := by decide
    have hstrip : pyStrip "1.1.1.1" = "1.1.1.1" := by decide
    constructor
    · unfold add_ip
      rw [hstrip] at hv ⊢
      simp [hv]
    · unfold is_ip_blocked
      rw [hstrip]
      simp [dictLookup_dictInsert_self]

/-- C9 (witness): the spec-valid quad `8.8.8.8` is accepted and stored. -/
theorem C9_witness :
    specValidDottedQuad (pyStrip "8.8.8.8") = true ∧
    add_ip true "8.8.8.8" "custom" blSample =
      (true, { blSample with
        blocked_ips := dictInsert blSample.blocked_ips (pyStrip "8.8.8.8") "custom" }) :=
  ⟨by decide, C9_add_ip_validation.1 "8.8.8.8" "custom" blSample true (by decide)⟩

/-- C9 (counterexample): `+1.2.3.4` is not a dotted quad of numeric octets
(its first field contains a sign), yet `add_ip` accepts it and stores it,
because Python `int("+1")` parses successfully — refuting "rejects every
other string". -/
theorem C9_counterexample :
    specValidDottedQuad "+1.2.3.4" = false ∧
    (add_ip true "+1.2.3.4" "custom" ⟨[], [], []⟩).1 = true ∧
    (add_ip true "+1.2.3.4" "custom" ⟨[], [], []⟩).2.blocked_ips =
      [("+1.2.3.4", "custom")] :=
  ⟨by decide, by decide, by decide⟩

/-- C7: every validated mutating rule-store operation applies its
in-memory mutation and returns the persist outcome, so when the persist
fails (`saveOk = false`) the operation reports failure while the mutation
stays visible: an added domain/IP is then reported blocked, an added
pattern is present and makes matching domains blocked, and a removed
domain/IP key is gone from the dict. -/
theorem C7_failed_persist_not_rolled_back (s : Blocklist)
    (domain ip cat : String) (p : RePattern) :
    ((normalizeDomain domain ≠ "" ∧
        (normalizeDomain domain).toList.contains '/' = false) →
      add_domain false domain cat s =
        (false,
          { s with
            blocked_domains := dictInsert s.blocked_domains (normalizeDomain domain) cat }) ∧
      (is_domain_blocked
        { s with
          blocked_domains := dictInsert s.blocked_domains (normalizeDomain domain) cat }
        domain).1 = true) ∧
    (is_valid_ip (pyStrip ip) = true →
      add_ip false ip cat s =
        (false,
          { s with blocked_ips := dictInsert s.blocked_ips (pyStrip ip) cat }) ∧
      (is_ip_blocked
        { s with blocked_ips := dictInsert s.blocked_ips (pyStrip ip) cat }
        ip).1 = true) ∧
    (add_pattern false (some p) cat s =
        (false,
          { s with blocked_patterns := s.blocked_patterns ++ [(p, cat)] }) ∧
      ∀ D, p.search (normalizeDomain D) = true →
        (is_domain_blocked
          { s with blocked_patterns := s.blocked_patterns ++ [(p, cat)] }
          D).1 = true) ∧
    ((∃ c0, dictLookup s.blocked_domains (normalizeDomain domain) = some c0) →
      remove_domain false domain s =
        (false,
          { s with
            blocked_domains := dictErase s.blocked_domains (normalizeDomain domain) }) ∧
      dictLookup (dictErase s.blocked_domains (normalizeDomain domain))
        (normalizeDomain domain) = none) ∧
    ((∃ c0, dictLookup s.blocked_ips (pyStrip ip) = some c0) →
      remove_ip false ip s =
        (false,
          { s with blocked_ips := dictErase s.blocked_ips (pyStrip ip) }) ∧
      dictLookup (dictErase s.blocked_ips (pyStrip ip)) (pyStrip ip) = none) := by
  refine ⟨?_, ?_, ⟨rfl, ?_⟩, ?_, ?_⟩
  · intro ⟨hne, hslash⟩
    constructor
    · have hcond : (normalizeDomain domain = "" ||
          (normalizeDomain domain).toList.contains '/') = false := by
        simp only [Bool.or_eq_false_iff, decide_eq_false_iff_not]
        exact ⟨hne, hslash⟩
      simp [add_domain, hcond]
      intro h
      rcases h with h | h
      · exact absurd h hne
      · have h2 : (normalizeDomain domain).toList.contains '/' = true := by
          simpa using h
        rw [h2] at hslash
        cases hslash
    · unfold is_domain_blocked
      simp only [dictLookup_dictInsert_self]
  · intro hv
    constructor
    · unfold add_ip
      simp [hv]
    · unfold is_ip_blocked
      simp only [dictLookup_dictInsert_self]
  · intro D hsearch
    exact blocked_of_pattern_mem _ D p cat (by simp) hsearch
  · intro ⟨c0, hc0⟩
    constructor
    · unfold remove_domain
      simp only [hc0]
    · exact dictLookup_dictErase_self _ _
  · intro ⟨c0, hc0⟩
    constructor
    · unfold remove_ip
      simp only [hc0]
    · exact dictLookup_dictErase_self _ _

/-- C7 (witness): with persist failing, on a concrete store re-adding the
existing domain, adding an IP and a pattern, and removing the stored
domain and IP all report failure while their mutations are visible. -/
theorem C7_witness :
    (add_domain false "old.com" "malware" blSample).1 = false ∧
    (is_domain_blocked (add_domain false "old.com" "malware" blSample).2 "old.com").1 = true ∧
    (add_ip false "2.2.2.2" "malware" blSample).1 = false ∧
    (is_ip_blocked (add_ip false "2.2.2.2" "malware" blSample).2 "2.2.2.2").1 = true ∧
    (add_pattern false (some patEvil) "malware" blSample).1 = false ∧
    (is_domain_blocked (add_pattern false (some patEvil) "malware" blSample).2
        "evilsite.com").1 = true ∧
    (remove_domain false "old.com" blSample).1 = false ∧
    dictLookup (remove_domain false "old.com" blSample).2.blocked_domains
      (normalizeDomain "old.com") = none ∧
    (remove_ip false "2.2.2.2" blSample).1 = false ∧
    dictLookup (remove_ip false "2.2.2.2" blSample).2.blocked_ips
      (pyStrip "2.2.2.2") = none := by
  obtain ⟨hd, hi, hp, hrd, hri⟩ :=
    C7_failed_persist_not_rolled_back blSample "old.com" "2.2.2.2" "malware" patEvil
  obtain ⟨hd1, hd2⟩ := hd ⟨by decide, by decide⟩
  obtain ⟨hi1, hi2⟩ := hi (by decide)
  obtain ⟨hrd1, hrd2⟩ := hrd ⟨"custom", by decide⟩
  obtain ⟨hri1, hri2⟩ := hri ⟨"custom", by decide⟩
  refine ⟨?_, ?_, ?_, ?_, ?_, ?_, ?_, ?_, ?_, ?_⟩
  · rw [hd1]
  · rw [hd1]
    exact hd2
  · rw [hi1]
  · rw [hi1]
    exact hi2
  · rw [hp.1]
  · rw [hp.1]
    exact hp.2 "evilsite.com" (by decide)
  · rw [hrd1]
  · rw [hrd1]
    exact hrd2
  · rw [hri1]
  · rw [hri1]
    exact hri2
